import Mathlib

/-!
Verification of the ECHONET Lite codec and discovery logic of
`mitsubishi.py` (functions `BuildEchonetMsg`, `DecodeEchonetMsg`,
`SendMessage`, `Discover`).

The Python functions are shallowly embedded: dicts become structures,
machine integers become `Nat` (Python ints are unbounded, so no modular
truncation is needed), exceptions become an `Except`/outcome type, and
the `print(...); quit()` handler in each `except ValueError` block is an
explicit `exit` outcome (process termination).

The registries `eojx.GROUP`, `eojx.CLASS`, `esv.CODES`, `epc.EHD1`,
`epc.EHD2` and the dispatch table `epc.CODE` are imported by the source
from the `mitsubishi_echonet` package and are not part of the file under
verification; they are modelled abstractly (see `Registry`, `Tables`,
`specRegistry`).
-/

namespace Echonet

/-- Python exceptions relevant to this program: `ValueError` (raised and
caught by the codec), `IndexError` (raised by out-of-range scalar
indexing into `bytes`, never caught by this code), and `KeyError`
(raised by a failed dict lookup, never caught by this code). -/
inductive PyErr : Type
  | valueError (msg : String)
  | indexError
  | keyError
deriving DecidableEq, Repr

/-- Observable outcome of calling one of the Python functions:
`ret a` — the function returned `a`;
`exit` — the function caught a `ValueError`, printed it and called
`quit()`, terminating the process;
`err e` — an uncaught exception `e` propagated to the caller. -/
inductive PyResult (α : Type) : Type
  | ret (a : α)
  | exit
  | err (e : PyErr)
deriving DecidableEq, Repr

/-- Modelled from the spec: the object-group registry `eojx.GROUP`, the
per-group class registry `eojx.CLASS`, the service-code registry
`esv.CODES` and the header-constant registries `epc.EHD1`/`epc.EHD2`
live in the external `mitsubishi_echonet` package (spec section 6 gives
only their interface); they are modelled as read-only lookup data. -/
structure Registry : Type where
  GROUP : List Nat
  CLASS : Nat → List Nat
  CODES : List Nat
  EHD1 : List Nat
  EHD2 : List Nat

/-- Modelled from the spec: a concrete registry instance containing the
values the source relies on — headers `0x10`/`0x81`, the Node-Profile
object group `0x0E` / class `0xF0`, and the Get service code `0x62`. -/
def specRegistry : Registry where
  GROUP := [0x0E]
  CLASS := fun g => if g = 0x0E then [0xF0] else []
  CODES := [0x62]
  EHD1 := [0x10]
  EHD2 := [0x81]

/-- One entry of the request's `OPC` array: the dict
`{'EPC': …, 'PDC': …, 'EDT': …}`. `PDC` may be absent (`none`).
`EDT` is a Python int; it is only read when `PDC` is present and
positive, so its value is irrelevant otherwise. (A request whose entry
has a positive `PDC` but no `EDT` key would raise an uncaught
`KeyError`; such requests are outside the claims and not modelled.) -/
structure OPCEntry : Type where
  EPC : Nat
  PDC : Option Nat
  EDT : Nat
deriving DecidableEq, Repr

/-- The request dict passed to `BuildEchonetMsg`: keys `TID` (optional),
`DEOJGC`, `DEOJCC`, `DEOJIC`, `ESV`, `OPC`. -/
structure Req : Type where
  TID : Option Nat
  DEOJGC : Nat
  DEOJCC : Nat
  DEOJIC : Nat
  ESV : Nat
  OPC : List OPCEntry
deriving DecidableEq, Repr

/-- One step of the `for values in data['OPC']` loop in
`BuildEchonetMsg`: append `EPC`; if `'PDC' in values` append `PDC` and,
when `PDC > 0`, shift by `8 * PDC` bits and add `EDT`; otherwise append
a zero `PDC` byte. -/
def opcStep (m : Nat) (v : OPCEntry) : Nat :=
  match v.PDC with
  | some p =>
      if p > 0 then (((m * 256 + v.EPC) * 256 + p) * 256 ^ p) + v.EDT
      else (m * 256 + v.EPC) * 256 + p
  | none => (m * 256 + v.EPC) * 256 + 0

/-- The part of `BuildEchonetMsg`'s try-block after the TID handling:
append SEOJ `0x05FF01`, validate and append DEOJ, validate and append
ESV, append `len(data['OPC'])`, then run the OPC loop. `m` is the
message accumulator holding `0x1081` followed by the two TID bytes. -/
def buildAfterTID (reg : Registry) (data : Req) (m : Nat) : Except PyErr Nat :=
  let m := m * 2 ^ 24 + 0x05FF01
  if data.DEOJGC ∈ reg.GROUP then
    let m := m * 256 + data.DEOJGC
    if data.DEOJCC ∈ reg.CLASS data.DEOJGC then
      let m := m * 256 + data.DEOJCC
      let m := m * 256 + data.DEOJIC
      if data.ESV ∈ reg.CODES then
        let m := m * 256 + data.ESV
        let m := m * 256 + data.OPC.length
        .ok (data.OPC.foldl opcStep m)
      else .error (.valueError "Value not in ESV code table")
    else .error (.valueError "not a valid SEO class code")
  else .error (.valueError "not a valid SEO Group code")

/-- The try-block of `BuildEchonetMsg`, paired with the state of the
caller's dict after the call (the function mutates `data` in place,
inserting `TID = 1` when the key is absent, before anything can fail). -/
def buildBody (reg : Registry) (d : Req) : Except PyErr Nat × Req :=
  match d.TID with
  | none =>
      let data : Req := { d with TID := some 1 }
      (buildAfterTID reg data (0x1081 * 2 ^ 16 + 1), data)
  | some t =>
      if t > 0xFFFF then
        (.error (.valueError "Transaction ID is larger then 2 bytes."), d)
      else (buildAfterTID reg d (0x1081 * 2 ^ 16 + t), d)

/-- Big-endian hex digits of `n` with explicit fuel; `hexDigitsAux
(n + 1) n` computes the digits of `n` (the fuel `n + 1` always
suffices because the argument shrinks by a factor 16 each step). -/
def hexDigitsAux : Nat → Nat → List Nat
  | 0, _ => []
  | fuel + 1, n => if n < 16 then [n] else hexDigitsAux fuel (n / 16) ++ [n % 16]

/-- Big-endian base-16 digit list of `n`, with no leading zero digit
(and `[0]` for `n = 0`), as produced by Python's `format(n, 'x')`. -/
def hexDigitsBE (n : Nat) : List Nat :=
  hexDigitsAux (n + 1) n

/-- Lowercase hexadecimal digit character, as in `format(n, 'x')`. -/
def hexCharOfDigit (d : Nat) : Char :=
  if d < 10 then Char.ofNat (48 + d) else Char.ofNat (87 + d)

/-- Python's `format(n, 'x')`: lowercase hex with no leading zeros. -/
def pyFormatX (n : Nat) : String :=
  ⟨(hexDigitsBE n).map hexCharOfDigit⟩

/-- Maps the try-block result through the
`except ValueError: print(...); quit()` handler: a `ValueError` is
caught and the process exits; any other exception propagates. -/
def pyCatchValueError : Except PyErr α → PyResult α
  | .ok a => .ret a
  | .error (.valueError _) => .exit
  | .error e => .err e

/-- `BuildEchonetMsg(data)` from `mitsubishi.py`: returns the outcome
(the hex string `format(message, 'x')` on success) together with the
state of the caller's dict after the call. -/
def BuildEchonetMsg (reg : Registry) (d : Req) : PyResult String × Req :=
  ((buildBody reg d).1.map pyFormatX |> pyCatchValueError, (buildBody reg d).2)

/-- Value of a hexadecimal character, `none` when the character is not
a hex digit (Python's `bytearray.fromhex` raises there). -/
def hexDigitOfChar (c : Char) : Option Nat :=
  if 48 ≤ c.toNat ∧ c.toNat ≤ 57 then some (c.toNat - 48)
  else if 97 ≤ c.toNat ∧ c.toNat ≤ 102 then some (c.toNat - 87)
  else if 65 ≤ c.toNat ∧ c.toNat ≤ 70 then some (c.toNat - 55)
  else none

/-- Parses pairs of hex characters into bytes; fails on an odd-length
list or a non-hex character. Models `bytearray.fromhex` on a
whitespace-free string. -/
def bytesFromHexChars : List Char → Option (List Nat)
  | [] => some []
  | [_] => none
  | c1 :: c2 :: rest =>
      match hexDigitOfChar c1, hexDigitOfChar c2, bytesFromHexChars rest with
      | some d1, some d2, some bs => some ((d1 * 16 + d2) :: bs)
      | _, _, _ => none

/-- Models `bytearray.fromhex(s)` for a whitespace-free string `s`:
the byte list, or `none` when `s` is not valid hex. -/
def bytesFromHex (s : String) : Option (List Nat) :=
  bytesFromHexChars s.data

/-- Python scalar indexing `byte[i]`: the element, or `IndexError` when
`i` is out of range. -/
def byteGet (b : List Nat) (i : Nat) : Except PyErr Nat :=
  match b[i]? with
  | some v => .ok v
  | none => .error .indexError

/-- Python slicing `byte[i:j]` (for `i ≤ j`): clamps at the end of the
sequence and never raises. -/
def pySlice (b : List Nat) (i j : Nat) : List Nat :=
  (b.drop i).take (j - i)

/-- Big-endian value of a byte list, as computed by
`int.from_bytes(bs, byteorder='big')`. -/
def valBE (l : List Nat) : Nat :=
  l.foldl (fun a b => a * 256 + b) 0

/-- One decoded property entry: the dict
`{'EPC': …, 'PDC': …, 'EDT': …}` built by `DecodeEchonetMsg`'s loop,
with `EDT` the raw byte slice. -/
structure DecOPC : Type where
  EPC : Nat
  PDC : Nat
  EDT : List Nat
deriving DecidableEq, Repr

/-- The dict built by `DecodeEchonetMsg`, plus the `'instance'` key
(`instF`) that `Discover` later inserts (absent, i.e. `none`, as
decoded). -/
structure DecData : Type where
  EHD1 : Nat
  EHD2 : Nat
  TID : Nat
  SEOJGC : Nat
  SEOJCC : Nat
  SEOJIC : Nat
  DEOJGC : Nat
  DEOJCC : Nat
  DEOJIC : Nat
  ESV : Nat
  OPC : List DecOPC
  instF : Option Nat
deriving DecidableEq, Repr

/-- The `while i < byte[11]` loop of `DecodeEchonetMsg`: `n` iterations
remain, the cursor `epc_pointer` is at `p`. Each iteration reads the
EPC byte at `p`, the PDC byte at `p + 1`, slices
`byte[p + 2 : p + 2 + PDC]` (Python slices clamp, so a truncated
payload yields a short slice, not an error) and advances the cursor. -/
def decodeOPC (b : List Nat) : Nat → Nat → Except PyErr (List DecOPC)
  | 0, _ => .ok []
  | n + 1, p =>
      match byteGet b p, byteGet b (p + 1) with
      | .ok epcv, .ok pdcv =>
          match decodeOPC b n (p + 2 + pdcv) with
          | .ok rest => .ok (⟨epcv, pdcv, pySlice b (p + 2) (p + 2 + pdcv)⟩ :: rest)
          | .error e => .error e
      | .error e, _ => .error e
      | .ok _, .error e => .error e

/-- The try-block of `DecodeEchonetMsg`: header bytes validated against
the registry (`ValueError` on mismatch), fixed-offset fields, then the
property loop from offset 12. Scalar indexing raises `IndexError`;
`byte[2:4]` is a slice and cannot raise. -/
def decodeBody (reg : Registry) (b : List Nat) : Except PyErr DecData :=
  match byteGet b 0 with
  | .error e => .error e
  | .ok e1 =>
    if e1 ∈ reg.EHD1 then
      match byteGet b 1 with
      | .error e => .error e
      | .ok e2 =>
        if e2 ∈ reg.EHD2 then
          match byteGet b 4, byteGet b 5, byteGet b 6 with
          | .ok sgc, .ok scc, .ok sic =>
            match byteGet b 7, byteGet b 8, byteGet b 9 with
            | .ok dgc, .ok dcc, .ok dic =>
              match byteGet b 10, byteGet b 11 with
              | .ok esvv, .ok cnt =>
                match decodeOPC b cnt 12 with
                | .ok opc =>
                    .ok ⟨e1, e2, valBE (pySlice b 2 4), sgc, scc, sic,
                         dgc, dcc, dic, esvv, opc, none⟩
                | .error e => .error e
              | .error e, _ => .error e
              | .ok _, .error e => .error e
            | .error e, _, _ => .error e
            | .ok _, .error e, _ => .error e
            | .ok _, .ok _, .error e => .error e
          | .error e, _, _ => .error e
          | .ok _, .error e, _ => .error e
          | .ok _, .ok _, .error e => .error e
        else .error (.valueError "EHD2 Header invalid")
    else .error (.valueError "EHD1 Header invalid")

/-- `DecodeEchonetMsg(byte)` from `mitsubishi.py`: the try-block result
through the `except ValueError: print(...); quit()` handler. A caught
`ValueError` terminates the process (`exit`); an `IndexError`
propagates to the caller. -/
def DecodeEchonetMsg (reg : Registry) (b : List Nat) : PyResult DecData :=
  pyCatchValueError (decodeBody reg b)

/-- One reply collected by `SendMessage`: the dict
`{'server': (ip, port), 'payload': bytes}`. -/
structure Reply : Type where
  server : String × Nat
  payload : List Nat
deriving DecidableEq, Repr

/-- The record returned by the external property-decode collaborator
(`epc.CODE[gc][cc][0xD6][1]` applied to the EDT bytes). -/
structure EdtRec : Type where
  eojgc : Nat
  eojcc : Nat
  eojci : Nat
deriving DecidableEq, Repr

/-- Modelled from the spec: the external dispatch table `epc.CODE`
(spec section 6: a property decode-and-construct table keyed by
group/class/property, and a device-constructor table keyed by
group/class). A missing key raises `KeyError` in the source. -/
structure Tables (Device : Type) : Type where
  propDecode : Nat → Nat → Nat → Option (List Nat → EdtRec)
  classConstruct : Nat → Nat → Option (DecData → String → Device)

/-- The fixed discovery request dict `tx_payload` built by `Discover`. -/
def discoverPayload : Req :=
  ⟨some 0x01, 0x0E, 0xF0, 0x00, 0x62, [⟨0xD6, none, 0⟩]⟩

/-- The `for node in data` loop of `Discover`: decode each reply (a
decode-time `ValueError` exits the process, an `IndexError`
propagates), apply the filter
`tx DEOJGC == rx SEOJGC and rx TID == tx TID and rx OPC[0] EPC == 0xd6`
with Python's left-to-right short-circuit (`rx['OPC'][0]` raises
`IndexError` on an empty list), then dispatch through the external
tables, insert `rx['instance']` and append the constructed device. -/
def discoverLoop {Device : Type} (reg : Registry) (tabs : Tables Device)
    (replies : List Reply) (acc : List Device) : PyResult (List Device) :=
  match replies with
  | [] => .ret acc
  | node :: rest =>
    match DecodeEchonetMsg reg node.payload with
    | .exit => .exit
    | .err e => .err e
    | .ret rx =>
      if discoverPayload.DEOJGC = rx.SEOJGC then
        if rx.TID = discoverPayload.TID.getD 1 then
          match rx.OPC[0]? with
          | none => .err .indexError
          | some o0 =>
            if o0.EPC = 0xD6 then
              match tabs.propDecode rx.SEOJGC rx.SEOJCC o0.EPC with
              | none => .err .keyError
              | some f =>
                let edt := f o0.EDT
                match tabs.classConstruct edt.eojgc edt.eojcc with
                | none => .err .keyError
                | some mk =>
                    discoverLoop reg tabs rest
                      (acc ++ [mk { rx with instF := some edt.eojci } node.server.1])
            else discoverLoop reg tabs rest acc
        else discoverLoop reg tabs rest acc
      else discoverLoop reg tabs rest acc

/-- `Discover()` from `mitsubishi.py`, with the transport abstracted:
`replies` is the list that `SendMessage` collected within its timeout
window (spec section 4.3: `exchange` returns the collected
`(sourceAddress, rawBytes)` pairs; the UDP socket itself is outside a
shallow embedding). `Discover` first encodes `tx_payload` — an encode
failure would exit the process — then runs the per-reply loop. -/
def Discover {Device : Type} (reg : Registry) (tabs : Tables Device)
    (replies : List Reply) : PyResult (List Device) :=
  match (BuildEchonetMsg reg discoverPayload).1 with
  | .ret _ => discoverLoop reg tabs replies []
  | .exit => .exit
  | .err e => .err e

/-- Fixed-width big-endian byte representation: the `p` low-order bytes
of `v`, most significant first. -/
def beBytes : Nat → Nat → List Nat
  | 0, _ => []
  | p + 1, v => beBytes p (v / 256) ++ [v % 256]

/-- The wire bytes one OPC entry contributes: EPC, then the PDC byte
(`0` when the `PDC` key is absent), then the `PDC` payload bytes. -/
def entryBytes (v : OPCEntry) : List Nat :=
  v.EPC :: v.PDC.getD 0 :: beBytes (v.PDC.getD 0) v.EDT

/-- The 12 fixed header bytes of the encoded frame for request `d` with
transaction id `t`: EHD `10 81`, TID big-endian, SEOJ `05 FF 01`, DEOJ,
ESV, property count. -/
def headerBytes (d : Req) (t : Nat) : List Nat :=
  [0x10, 0x81, t / 256, t % 256, 0x05, 0xFF, 0x01,
   d.DEOJGC, d.DEOJCC, d.DEOJIC, d.ESV, d.OPC.length]

/-- The full encoded frame for request `d` as a byte list. -/
def frameBytes (d : Req) : List Nat :=
  headerBytes d (d.TID.getD 1) ++ d.OPC.flatMap entryBytes

/-- The decoded form of one request OPC entry: declared length
`PDC.getD 0` and the payload as fixed-width big-endian bytes. -/
def decOf (v : OPCEntry) : DecOPC :=
  ⟨v.EPC, v.PDC.getD 0, beBytes (v.PDC.getD 0) v.EDT⟩

/-- The frame `DecodeEchonetMsg` reconstructs from the encoding of a
well-formed request `d`: every field of `d`, the fixed headers and the
fixed source object `05 FF 01`. -/
def decodedOf (d : Req) : DecData :=
  ⟨0x10, 0x81, d.TID.getD 1, 0x05, 0xFF, 0x01,
   d.DEOJGC, d.DEOJCC, d.DEOJIC, d.ESV, d.OPC.map decOf, none⟩

/-- Well-formedness of a request (spec section 3): a present
`transactionId ≤ 0xFFFF`, registered destination group/class and
service code — all byte-valued, as the data model's field widths
require — an instance byte, at most 255 property entries, and each
entry's code a byte with its data fitting its declared length. -/
def wellFormedReq (reg : Registry) (d : Req) : Prop :=
  d.TID.isSome = true ∧ d.TID.getD 1 ≤ 0xFFFF ∧
  d.DEOJGC ∈ reg.GROUP ∧ d.DEOJGC < 256 ∧
  d.DEOJCC ∈ reg.CLASS d.DEOJGC ∧ d.DEOJCC < 256 ∧
  d.DEOJIC < 256 ∧
  d.ESV ∈ reg.CODES ∧ d.ESV < 256 ∧
  d.OPC.length ≤ 255 ∧
  ∀ v ∈ d.OPC, v.EPC < 256 ∧
    (v.PDC = none ∨ (v.PDC.getD 0 < 256 ∧ v.EDT < 256 ^ v.PDC.getD 0))

instance (reg : Registry) (d : Req) : Decidable (wellFormedReq reg d) := by
  unfold wellFormedReq
  infer_instance

/-- The byte sequence obtained by interpreting `BuildEchonetMsg`'s hex
string output as bytes (`bytearray.fromhex` in `SendMessage`); `none`
when encoding did not return a string. -/
def encodedBytes (reg : Registry) (d : Req) : Option (List Nat) :=
  match (BuildEchonetMsg reg d).1 with
  | .ret s => bytesFromHex s
  | _ => none

lemma valBE_foldl (l : List Nat) : ∀ a : Nat,
    l.foldl (fun x b => x * 256 + b) a = a * 256 ^ l.length + valBE l := by
  induction l with
  | nil => intro a; simp [valBE]
  | cons b bs ih =>
      intro a
      have hcons : valBE (b :: bs) = b * 256 ^ bs.length + valBE bs := by
        have h0 : valBE (b :: bs) = bs.foldl (fun x c => x * 256 + c) (0 * 256 + b) := rfl
        rw [h0]
        simpa using ih (0 * 256 + b)
      simp only [List.foldl_cons, List.length_cons]
      rw [ih (a * 256 + b), hcons, pow_succ]
      ring

lemma valBE_append (l₁ l₂ : List Nat) :
    valBE (l₁ ++ l₂) = valBE l₁ * 256 ^ l₂.length + valBE l₂ := by
  simp only [valBE, List.foldl_append]
  exact valBE_foldl l₂ _

lemma valBE_pair_cons (e p : Nat) (l : List Nat) :
    valBE (e :: p :: l) = (e * 256 + p) * 256 ^ l.length + valBE l := by
  have h : e :: p :: l = [e, p] ++ l := rfl
  rw [h, valBE_append]
  simp [valBE]

lemma beBytes_length (p : Nat) : ∀ v : Nat, (beBytes p v).length = p := by
  induction p with
  | zero => intro v; rfl
  | succ q ih => intro v; simp [beBytes, ih]

lemma valBE_beBytes (p : Nat) : ∀ v : Nat, v < 256 ^ p → valBE (beBytes p v) = v := by
  induction p with
  | zero =>
      intro v hv
      simp only [pow_zero, Nat.lt_one_iff] at hv
      simp [beBytes, valBE, hv]
  | succ q ih =>
      intro v hv
      have hdiv : v / 256 < 256 ^ q := by
        rw [Nat.div_lt_iff_lt_mul (by norm_num)]
        calc v < 256 ^ (q + 1) := hv
          _ = 256 ^ q * 256 := by rw [pow_succ]
      have hsing : valBE [v % 256] = v % 256 := by simp [valBE]
      simp only [beBytes, valBE_append, beBytes_length, List.length_singleton,
        pow_one, hsing]
      rw [ih (v / 256) hdiv]
      omega

lemma beBytes_mem_lt (p : Nat) : ∀ v : Nat, ∀ x ∈ beBytes p v, x < 256 := by
  induction p with
  | zero => intro v x hx; simp [beBytes] at hx
  | succ q ih =>
      intro v x hx
      simp only [beBytes, List.mem_append, List.mem_singleton] at hx
      rcases hx with hx | hx
      · exact ih (v / 256) x hx
      · subst hx; exact Nat.mod_lt v (by norm_num)

lemma valBE_nil_eq : valBE ([] : List Nat) = 0 := rfl

lemma opcStep_val (m : Nat) (v : OPCEntry)
    (h : v.PDC = none ∨ v.EDT < 256 ^ v.PDC.getD 0) :
    opcStep m v = m * 256 ^ (entryBytes v).length + valBE (entryBytes v) := by
  rcases hp : v.PDC with _ | p
  · simp only [opcStep, hp, entryBytes, Option.getD_none]
    rw [valBE_pair_cons]
    simp only [beBytes, List.length_cons, List.length_nil, pow_zero, mul_one,
      valBE_nil_eq]
    ring
  · have hEDT : 0 < p → v.EDT < 256 ^ p := by
      intro _
      rcases h with h | h
      · rw [hp] at h; cases h
      · rwa [hp, Option.getD_some] at h
    simp only [opcStep, hp, entryBytes, Option.getD_some]
    by_cases hp0 : p > 0
    · rw [if_pos hp0, valBE_pair_cons, beBytes_length, valBE_beBytes p v.EDT (hEDT hp0)]
      simp only [List.length_cons, beBytes_length]
      rw [show p + 1 + 1 = 2 + p by ring, pow_add]
      ring
    · have hpz : p = 0 := by omega
      subst hpz
      rw [if_neg hp0, valBE_pair_cons]
      simp only [beBytes, List.length_cons, List.length_nil, pow_zero, mul_one,
        valBE_nil_eq]
      ring

lemma foldl_opcStep (opc : List OPCEntry)
    (h : ∀ v ∈ opc, v.PDC = none ∨ v.EDT < 256 ^ v.PDC.getD 0) :
    ∀ m : Nat, opc.foldl opcStep m =
      m * 256 ^ (opc.flatMap entryBytes).length + valBE (opc.flatMap entryBytes) := by
  induction opc with
  | nil => intro m; simp [valBE]
  | cons v ps ih =>
      intro m
      have hv := h v (List.mem_cons_self v ps)
      have hps : ∀ w ∈ ps, w.PDC = none ∨ w.EDT < 256 ^ w.PDC.getD 0 :=
        fun w hw => h w (List.mem_cons_of_mem v hw)
      simp only [List.foldl_cons, List.flatMap_cons]
      rw [ih hps (opcStep m v), opcStep_val m v hv, valBE_append,
          List.length_append, pow_add]
      ring

lemma valBE_headerBytes (d : Req) (t : Nat) :
    valBE (headerBytes d t) =
      ((((((0x1081 * 2 ^ 16 + t) * 2 ^ 24 + 0x05FF01) * 256 + d.DEOJGC) * 256
        + d.DEOJCC) * 256 + d.DEOJIC) * 256 + d.ESV) * 256 + d.OPC.length := by
  simp only [headerBytes, valBE, List.foldl_cons, List.foldl_nil]
  have ht := Nat.div_add_mod t 256
  norm_num
  omega

lemma buildBody_ok (reg : Registry) (d : Req) (h : wellFormedReq reg d) :
    (buildBody reg d).1 = .ok (valBE (frameBytes d)) := by
  obtain ⟨hsome, hle, hg, _, hc, _, _, he, _, _, hopc⟩ := h
  obtain ⟨t, ht⟩ := Option.isSome_iff_exists.mp hsome
  rw [ht, Option.getD_some] at hle
  have hnot : ¬ t > 0xFFFF := by omega
  simp only [buildBody, ht, if_neg hnot, buildAfterTID, if_pos hg, if_pos hc,
    if_pos he]
  rw [foldl_opcStep d.OPC (fun v hv => ((hopc v hv).2).imp id And.right)]
  have hkey : valBE (frameBytes d) =
      valBE (headerBytes d t) * 256 ^ (d.OPC.flatMap entryBytes).length
        + valBE (d.OPC.flatMap entryBytes) := by
    simp only [frameBytes, ht, Option.getD_some, valBE_append]
  rw [hkey, valBE_headerBytes]

lemma hexDigitsAux_congr : ∀ f1 : Nat, ∀ f2 n : Nat, 0 < f1 → 0 < f2 →
    n < 16 ^ f1 → n < 16 ^ f2 → hexDigitsAux f1 n = hexDigitsAux f2 n := by
  intro f1
  induction f1 with
  | zero => intro f2 n h; omega
  | succ f ih =>
      intro f2 n _ hf2 hb1 hb2
      match f2, hf2 with
      | g + 1, _ =>
        simp only [hexDigitsAux]
        by_cases h16 : n < 16
        · simp [h16]
        · simp only [if_neg h16]
          have hfpos : 0 < f := by
            by_contra hf0
            have : f = 0 := by omega
            subst this
            simp at hb1
            omega
          have hgpos : 0 < g := by
            by_contra hg0
            have : g = 0 := by omega
            subst this
            simp at hb2
            omega
          have hd1 : n / 16 < 16 ^ f := by
            rw [Nat.div_lt_iff_lt_mul (by norm_num)]
            calc n < 16 ^ (f + 1) := hb1
              _ = 16 ^ f * 16 := by rw [pow_succ]
          have hd2 : n / 16 < 16 ^ g := by
            rw [Nat.div_lt_iff_lt_mul (by norm_num)]
            calc n < 16 ^ (g + 1) := hb2
              _ = 16 ^ g * 16 := by rw [pow_succ]
          rw [ih g (n / 16) hfpos hgpos hd1 hd2]

lemma hexDigitsBE_of_lt (n : Nat) (h : n < 16) : hexDigitsBE n = [n] := by
  simp [hexDigitsBE, hexDigitsAux, h]

lemma hexDigitsBE_step (n : Nat) (h : 16 ≤ n) :
    hexDigitsBE n = hexDigitsBE (n / 16) ++ [n % 16] := by
  have h0 : hexDigitsBE n = hexDigitsAux n (n / 16) ++ [n % 16] := by
    simp [hexDigitsBE, hexDigitsAux, Nat.not_lt.mpr h]
  rw [h0, hexDigitsBE]
  congr 1
  apply hexDigitsAux_congr
  · omega
  · omega
  · calc n / 16 ≤ n := Nat.div_le_self n 16
      _ < 16 ^ n := Nat.lt_pow_self (by norm_num) n
  · calc n / 16 < 16 ^ (n / 16) := Nat.lt_pow_self (by norm_num) (n / 16)
      _ ≤ 16 ^ (n / 16 + 1) := Nat.pow_le_pow_right (by norm_num) (by omega)

lemma hexDigitsBE_mul256 (a r : Nat) (ha : 0 < a) (hr : r < 256) :
    hexDigitsBE (a * 256 + r) = hexDigitsBE a ++ [r / 16, r % 16] := by
  have h1 : 16 ≤ a * 256 + r := by nlinarith
  have hdiv1 : (a * 256 + r) / 16 = a * 16 + r / 16 := by omega
  have hmod1 : (a * 256 + r) % 16 = r % 16 := by omega
  have h2 : 16 ≤ a * 16 + r / 16 := by omega
  have hdiv2 : (a * 16 + r / 16) / 16 = a := by omega
  have hmod2 : (a * 16 + r / 16) % 16 = r / 16 := by omega
  rw [hexDigitsBE_step _ h1, hdiv1, hmod1, hexDigitsBE_step _ h2, hdiv2, hmod2,
    List.append_assoc]
  rfl

lemma hexDigitsBE_foldl (L : List Nat) : ∀ a : Nat, 0 < a →
    (∀ x ∈ L, x < 256) →
    hexDigitsBE (L.foldl (fun m b => m * 256 + b) a) =
      hexDigitsBE a ++ L.flatMap (fun b => [b / 16, b % 16]) := by
  induction L with
  | nil => intro a _ _; simp
  | cons b bs ih =>
      intro a ha hb
      have hb' : b < 256 := hb b (List.mem_cons_self b bs)
      have hbs : ∀ x ∈ bs, x < 256 := fun x hx => hb x (List.mem_cons_of_mem b hx)
      simp only [List.foldl_cons, List.flatMap_cons]
      rw [ih (a * 256 + b) (by positivity) hbs, hexDigitsBE_mul256 a b ha hb',
        List.append_assoc]

lemma hexDigitsBE_valBE (b0 : Nat) (rest : List Nat) (h0 : 16 ≤ b0)
    (h0' : b0 < 256) (hr : ∀ x ∈ rest, x < 256) :
    hexDigitsBE (valBE (b0 :: rest)) =
      (b0 :: rest).flatMap (fun b => [b / 16, b % 16]) := by
  have hv : valBE (b0 :: rest) = rest.foldl (fun m b => m * 256 + b) b0 := by
    simp [valBE]
  rw [hv, hexDigitsBE_foldl rest b0 (by omega) hr, List.flatMap_cons]
  congr 1
  rw [hexDigitsBE_step b0 h0, hexDigitsBE_of_lt (b0 / 16) (by omega)]
  rfl

lemma hexDigit_round (d : Nat) (h : d < 16) :
    hexDigitOfChar (hexCharOfDigit d) = some d := by
  interval_cases d <;> rfl

lemma bytesFromHexChars_cons2 (c1 c2 : Char) (rest : List Char)
    (d1 d2 : Nat) (bs : List Nat)
    (h1 : hexDigitOfChar c1 = some d1) (h2 : hexDigitOfChar c2 = some d2)
    (h3 : bytesFromHexChars rest = some bs) :
    bytesFromHexChars (c1 :: c2 :: rest) = some ((d1 * 16 + d2) :: bs) := by
  simp [bytesFromHexChars, h1, h2, h3]

lemma bytesFromHexChars_pairs (B : List Nat) (h : ∀ b ∈ B, b < 256) :
    bytesFromHexChars
      ((B.flatMap (fun b => [b / 16, b % 16])).map hexCharOfDigit) = some B := by
  induction B with
  | nil => rfl
  | cons b bs ih =>
      have hb : b < 256 := h b (List.mem_cons_self b bs)
      have hbs : ∀ x ∈ bs, x < 256 := fun x hx => h x (List.mem_cons_of_mem b hx)
      have key := bytesFromHexChars_cons2 (hexCharOfDigit (b / 16))
        (hexCharOfDigit (b % 16))
        ((bs.flatMap (fun c => [c / 16, c % 16])).map hexCharOfDigit)
        (b / 16) (b % 16) bs
        (hexDigit_round (b / 16) (by omega)) (hexDigit_round (b % 16) (by omega))
        (ih hbs)
      have hb16 : b / 16 * 16 + b % 16 = b := by omega
      rw [hb16] at key
      exact key

lemma frameBytes_bytes (reg : Registry) (d : Req) (h : wellFormedReq reg d) :
    ∀ x ∈ frameBytes d, x < 256 := by
  obtain ⟨hsome, hle, _, hg2, _, hc2, hic, _, he2, hlen, hopc⟩ := h
  intro x hx
  simp only [frameBytes, List.mem_append] at hx
  rcases hx with hx | hx
  · simp only [headerBytes, List.mem_cons, List.not_mem_nil, or_false] at hx
    rcases hx with h | h | h | h | h | h | h | h | h | h | h | h <;> subst h <;> omega
  · rw [List.mem_flatMap] at hx
    obtain ⟨v, hv, hxv⟩ := hx
    obtain ⟨hepc, hpdc⟩ := hopc v hv
    simp only [entryBytes, List.mem_cons] at hxv
    rcases hxv with h | h | h
    · omega
    · rcases hpdc with hp | hp
      · rw [hp] at h; simp at h; omega
      · omega
    · exact beBytes_mem_lt _ _ x h

lemma frameBytes_cons (d : Req) :
    frameBytes d = 0x10 :: (headerBytes d (d.TID.getD 1)).tail
      ++ d.OPC.flatMap entryBytes := by
  simp [frameBytes, headerBytes]

lemma encodedBytes_eq (reg : Registry) (d : Req) (h : wellFormedReq reg d) :
    encodedBytes reg d = some (frameBytes d) := by
  have hmsg := buildBody_ok reg d h
  have hret : (BuildEchonetMsg reg d).1 = .ret (pyFormatX (valBE (frameBytes d))) := by
    simp [BuildEchonetMsg, hmsg, pyCatchValueError, Except.map]
  simp only [encodedBytes, hret]
  have hcons : ∃ rest, frameBytes d = 0x10 :: rest ∧ ∀ x ∈ rest, x < 256 := by
    refine ⟨(headerBytes d (d.TID.getD 1)).tail ++ d.OPC.flatMap entryBytes,
      frameBytes_cons d, ?_⟩
    intro x hx
    apply frameBytes_bytes reg d h
    rw [frameBytes_cons d]
    exact List.mem_cons_of_mem _ hx
  obtain ⟨rest, hfc, hrest⟩ := hcons
  rw [hfc]
  unfold bytesFromHex pyFormatX
  rw [hexDigitsBE_valBE 0x10 rest (by norm_num) (by norm_num) hrest]
  exact bytesFromHexChars_pairs (0x10 :: rest)
    (by intro b hb; rcases List.mem_cons.mp hb with h | h; · omega
        · exact hrest b h)

lemma byteGet_append_right (pre l : List Nat) (i : Nat) :
    byteGet (pre ++ l) (pre.length + i) = byteGet l i := by
  simp [byteGet, List.getElem?_append_right (Nat.le_add_right pre.length i)]

lemma entryBytes_length (v : OPCEntry) :
    (entryBytes v).length = 2 + v.PDC.getD 0 := by
  simp only [entryBytes, List.length_cons, beBytes_length]
  omega

lemma decodeOPC_append (props : List OPCEntry) : ∀ pre : List Nat,
    decodeOPC (pre ++ props.flatMap entryBytes) props.length pre.length =
      .ok (props.map decOf) := by
  induction props with
  | nil => intro pre; rfl
  | cons v ps ih =>
      intro pre
      have hsplit : pre ++ (v :: ps).flatMap entryBytes =
          (pre ++ entryBytes v) ++ ps.flatMap entryBytes := by
        rw [List.flatMap_cons, List.append_assoc]
      have hb : pre ++ (v :: ps).flatMap entryBytes =
          pre ++ (v.EPC :: v.PDC.getD 0 :: beBytes (v.PDC.getD 0) v.EDT
            ++ ps.flatMap entryBytes) := by
        rw [List.flatMap_cons]
        rfl
      have hepc : byteGet (pre ++ (v :: ps).flatMap entryBytes) pre.length
          = .ok v.EPC := by
        rw [hb, show pre.length = pre.length + 0 by omega, byteGet_append_right]
        rfl
      have hpdc : byteGet (pre ++ (v :: ps).flatMap entryBytes) (pre.length + 1)
          = .ok (v.PDC.getD 0) := by
        rw [hb, byteGet_append_right]
        simp [byteGet]
      have hslice : pySlice (pre ++ (v :: ps).flatMap entryBytes)
          (pre.length + 2) (pre.length + 2 + v.PDC.getD 0)
          = beBytes (v.PDC.getD 0) v.EDT := by
        have hb2 : pre ++ (v :: ps).flatMap entryBytes =
            (pre ++ [v.EPC, v.PDC.getD 0]) ++ (beBytes (v.PDC.getD 0) v.EDT
              ++ ps.flatMap entryBytes) := by
          rw [hb]
          simp
        rw [pySlice, hb2, Nat.add_sub_cancel_left,
          List.drop_left' (by simp : (pre ++ [v.EPC, v.PDC.getD 0]).length
            = pre.length + 2),
          List.take_left' (beBytes_length _ _)]
      have hrec : decodeOPC (pre ++ (v :: ps).flatMap entryBytes) ps.length
          (pre.length + 2 + v.PDC.getD 0) = .ok (ps.map decOf) := by
        have hlen : pre.length + 2 + v.PDC.getD 0
            = (pre ++ entryBytes v).length := by
          rw [List.length_append, entryBytes_length]
          omega
        rw [hsplit, hlen]
        exact ih (pre ++ entryBytes v)
      simp only [List.length_cons, decodeOPC, hepc, hpdc, hrec, hslice,
        List.map_cons]
      rfl

lemma decodeBody_frameBytes (reg : Registry) (d : Req)
    (h1 : 0x10 ∈ reg.EHD1) (h2 : 0x81 ∈ reg.EHD2) :
    decodeBody reg (frameBytes d) = .ok (decodedOf d) := by
  have hopc : decodeOPC (frameBytes d) d.OPC.length 12 = .ok (d.OPC.map decOf) := by
    have h12 : (12 : Nat) = (headerBytes d (d.TID.getD 1)).length := by
      simp [headerBytes]
    rw [frameBytes, h12]
    exact decodeOPC_append d.OPC (headerBytes d (d.TID.getD 1))
  have htid : valBE (pySlice (frameBytes d) 2 4) = d.TID.getD 1 := by
    have hsl : pySlice (frameBytes d) 2 4 =
        [d.TID.getD 1 / 256, d.TID.getD 1 % 256] := rfl
    rw [hsl]
    simp only [valBE, List.foldl_cons, List.foldl_nil]
    omega
  have e0 : byteGet (frameBytes d) 0 = .ok 16 := rfl
  have e1 : byteGet (frameBytes d) 1 = .ok 129 := rfl
  have e4 : byteGet (frameBytes d) 4 = .ok 5 := rfl
  have e5 : byteGet (frameBytes d) 5 = .ok 255 := rfl
  have e6 : byteGet (frameBytes d) 6 = .ok 1 := rfl
  have e7 : byteGet (frameBytes d) 7 = .ok d.DEOJGC := rfl
  have e8 : byteGet (frameBytes d) 8 = .ok d.DEOJCC := rfl
  have e9 : byteGet (frameBytes d) 9 = .ok d.DEOJIC := rfl
  have e10 : byteGet (frameBytes d) 10 = .ok d.ESV := rfl
  have e11 : byteGet (frameBytes d) 11 = .ok d.OPC.length := by
    simp [byteGet, frameBytes, headerBytes]
  unfold decodeBody
  rw [e0, e1, e4, e5, e6, e7, e8, e9, e10, e11]
  simp only [if_pos h1, if_pos h2, hopc, htid]
  rfl

lemma decode_frameBytes (reg : Registry) (d : Req)
    (h1 : 0x10 ∈ reg.EHD1) (h2 : 0x81 ∈ reg.EHD2) :
    DecodeEchonetMsg reg (frameBytes d) = .ret (decodedOf d) := by
  rw [DecodeEchonetMsg, decodeBody_frameBytes reg d h1 h2]
  rfl

/-- Modelled from the spec: a concrete instantiation of the external
dispatch table `epc.CODE` (spec section 6) for the Node-Profile object:
property `0xD6` of group `0x0E` class `0xF0` decodes to an object
identity (here group `0x01`, class `0x30`, instance = first payload
byte), and the device constructor for that identity pairs the decoded
frame with the source address. -/
def testTables : Tables (DecData × String) where
  propDecode := fun g c p =>
    if g = 0x0E ∧ c = 0xF0 ∧ p = 0xD6 then
      some (fun edt => ⟨0x01, 0x30, edt.headD 0⟩)
    else none
  classConstruct := fun g c =>
    if g = 0x01 ∧ c = 0x30 then some (fun rx a => (rx, a)) else none

/-- A reply whose first byte is not a registered EHD1 header: decoding
it raises `ValueError`, which `DecodeEchonetMsg` catches and turns into
process termination. -/
def badReply : Reply := ⟨("192.168.1.66", 3610), [0xFF]⟩

/-- A well-formed discovery reply: transaction id 1 (matching the
request), source object = the Node-Profile object `0E F0 01`, service
`0x72` (Get response), one property `0xD6` with a 1-byte payload. -/
def goodReply : Reply :=
  ⟨("192.168.1.10", 3610),
   [0x10, 0x81, 0x00, 0x01, 0x0E, 0xF0, 0x01, 0x05, 0xFF, 0x01,
    0x72, 0x01, 0xD6, 0x01, 0x01]⟩

/-- Identical to `goodReply` except for its transaction id (2 instead
of the request's 1) and its source address. -/
def otherTidReply : Reply :=
  ⟨("192.168.1.20", 3610),
   [0x10, 0x81, 0x00, 0x02, 0x0E, 0xF0, 0x01, 0x05, 0xFF, 0x01,
    0x72, 0x01, 0xD6, 0x01, 0x01]⟩

/-- The device object `Discover` constructs from `goodReply` with
`testTables`: the decoded frame with `'instance'` inserted, paired with
the reply's source address. -/
def goodDevice : DecData × String :=
  (⟨16, 129, 1, 14, 240, 1, 5, 255, 1, 114, [⟨214, 1, [1]⟩], some 1⟩,
   "192.168.1.10")

/-- A well-formed request whose single property carries the two-byte
payload `00 FF` — its first byte is zero, the case the spec singles
out. -/
def w1Req : Req := ⟨some 0x0102, 0x0E, 0xF0, 0x01, 0x62, [⟨0xD6, some 2, 0xFF⟩]⟩

/-- A well-formed request with two properties (one with a 1-byte
payload, one with no `PDC` key), used to instantiate the length
theorem. -/
def w8Req : Req :=
  ⟨some 3, 0x0E, 0xF0, 2, 0x62, [⟨0xD6, some 1, 0xAB⟩, ⟨0x80, none, 0⟩]⟩

lemma buildDiscover_ret : (BuildEchonetMsg specRegistry discoverPayload).1
    = .ret (pyFormatX (valBE (frameBytes discoverPayload))) := by
  simp [BuildEchonetMsg, buildBody_ok specRegistry discoverPayload (by decide),
    pyCatchValueError, Except.map]

lemma discoverHex : pyFormatX (valBE (frameBytes discoverPayload))
    = "1081000105ff010ef0006201d600" := by
  have hfb : frameBytes discoverPayload
      = 16 :: [129, 0, 1, 5, 255, 1, 14, 240, 0, 98, 1, 214, 0] := by decide
  have hd : hexDigitsBE (valBE (frameBytes discoverPayload))
      = (16 :: [129, 0, 1, 5, 255, 1, 14, 240, 0, 98, 1, 214, 0]).flatMap
          (fun b => [b / 16, b % 16]) := by
    rw [hfb]
    exact hexDigitsBE_valBE 16 _ (by norm_num) (by norm_num) (by decide)
  rw [pyFormatX, hd]
  decide

/-- C1: for every well-formed request (present transaction id at most
`0xFFFF`, registered destination group/class and service code with
byte-valued fields, at most 255 properties, each property's data
fitting its declared length), interpreting `BuildEchonetMsg`'s hex
string as bytes yields exactly the frame bytes of the request, and
`DecodeEchonetMsg` on those bytes returns every field of the request —
headers `10 81`, transaction id, source object `05 FF 01`, destination
object, service code, and each property's code, declared length and
payload bytes (`decodedOf`), including payloads whose first byte is
`0x00`. -/
theorem build_decode_round_trip (reg : Registry) (d : Req)
    (h : wellFormedReq reg d) (h1 : 0x10 ∈ reg.EHD1) (h2 : 0x81 ∈ reg.EHD2) :
    encodedBytes reg d = some (frameBytes d) ∧
    DecodeEchonetMsg reg (frameBytes d) = .ret (decodedOf d) :=
  ⟨encodedBytes_eq reg d h, decode_frameBytes reg d h1 h2⟩

/-- C1 witness: the round trip at a concrete request whose payload is
`00 FF` (leading zero byte) under the concrete registry. -/
theorem build_decode_round_trip_witness :
    (wellFormedReq specRegistry w1Req ∧ 0x10 ∈ specRegistry.EHD1 ∧
      0x81 ∈ specRegistry.EHD2) ∧
    (encodedBytes specRegistry w1Req = some (frameBytes w1Req) ∧
      DecodeEchonetMsg specRegistry (frameBytes w1Req) = .ret (decodedOf w1Req)) :=
  ⟨⟨by decide, by decide, by decide⟩,
   build_decode_round_trip specRegistry w1Req (by decide) (by decide) (by decide)⟩

deriving instance DecidableEq for Except

/-- C2: the code does not surface the `InvalidRequest` error to its
caller. At `transactionId = 0x10000` the try-block raises `ValueError`
(the validation condition itself is as claimed), but the
`except ValueError` handler prints and calls `quit()`, so the call
terminates the process instead of returning the error. -/
theorem build_tid_overflow_terminates :
    (buildBody specRegistry ⟨some 0x10000, 0x0E, 0xF0, 0x00, 0x62, []⟩).1
      = .error (.valueError "Transaction ID is larger then 2 bytes.") ∧
    (BuildEchonetMsg specRegistry
      ⟨some 0x10000, 0x0E, 0xF0, 0x00, 0x62, []⟩).1 = PyResult.exit := by
  decide

/-- C3: on inputs shorter than 12 bytes the decoder does not fail with
a caught `MalformedFrame`: scalar indexing raises `IndexError`, which
the `except ValueError` clause does not catch, so a raw indexing fault
escapes to the caller (empty input and an 11-byte input shown); an
input failing the header check instead terminates the process. -/
theorem decode_short_input_index_error :
    DecodeEchonetMsg specRegistry [] = .err .indexError ∧
    DecodeEchonetMsg specRegistry
      [0x10, 0x81, 0x00, 0x01, 0x05, 0xFF, 0x01, 0x0E, 0xF0, 0x00, 0x62]
      = .err .indexError ∧
    DecodeEchonetMsg specRegistry [0xFF] = PyResult.exit := by
  decide

/-- C4: a frame declaring a 5-byte property payload with zero payload
bytes remaining decodes successfully (the Python slice clamps), and the
decoder returns a frame whose `EDT` is empty rather than failing with
`MalformedFrame`; a frame whose property count points past the end of
the input raises an uncaught `IndexError` instead. -/
theorem decode_truncated_payload_returns_frame :
    DecodeEchonetMsg specRegistry
      [0x10, 0x81, 0x00, 0x01, 0x05, 0xFF, 0x01, 0x0E, 0xF0, 0x00,
       0x62, 0x01, 0xD6, 0x05]
      = .ret ⟨16, 129, 1, 5, 255, 1, 14, 240, 0, 98, [⟨214, 5, []⟩], none⟩ ∧
    DecodeEchonetMsg specRegistry
      [0x10, 0x81, 0x00, 0x01, 0x05, 0xFF, 0x01, 0x0E, 0xF0, 0x00, 0x62, 0x01]
      = .err .indexError := by
  decide

/-- C5: a decode-time error on one reply is not swallowed per-reply:
with a malformed first reply, `Discover` terminates the process
(`exit`) and the valid second reply is never processed, although that
reply alone would have produced a device. -/
theorem discover_malformed_reply_aborts :
    Discover specRegistry testTables [badReply, goodReply] = PyResult.exit ∧
    Discover specRegistry testTables [goodReply] = .ret [goodDevice] := by
  decide

/-- C6: with exactly two replies — one matching (transaction id 1,
source = Node-Profile object, first property `0xD6`) and one whose
transaction id differs — `Discover` returns exactly the one device
constructed from the matching reply and silently ignores the other. -/
theorem discover_filters_mismatched_tid :
    Discover specRegistry testTables [goodReply, otherTidReply]
      = .ret [goodDevice] := by
  decide

/-- C7: with zero collected replies, `Discover` returns the empty list
(no error outcome), for every dispatch table. -/
theorem discover_zero_replies_empty (Device : Type) (tabs : Tables Device) :
    Discover specRegistry tabs ([] : List Reply) = .ret ([] : List Device) := by
  rw [Discover, buildDiscover_ret]
  rfl

/-- C8 counterexample: the discovery request encodes to 14 bytes, but
the claimed formula `12 fixed bytes + 1 (count byte) + Σ (2 + length)`
gives `12 + 1 + 2 = 15`: the 12 fixed header bytes already include the
property-count byte, so the extra `+ 1` double-counts it. -/
theorem encoded_length_formula_counterexample :
    ¬ ((encodedBytes specRegistry discoverPayload).map List.length
        = some (12 + 1 +
            (discoverPayload.OPC.map fun v => 2 + v.PDC.getD 0).sum)) := by
  rw [encodedBytes_eq specRegistry discoverPayload (by decide)]
  decide

/-- C8 (amended): for every well-formed request the encoded frame
(hex output interpreted as bytes) has exactly `12 + Σ (2 + declared
length)` bytes, where the 12 covers the fixed header including the
property-count byte (11 fixed bytes + 1 count byte), and each entry
contributes 2 bytes plus its declared data length. -/
theorem encoded_length_formula_amended (reg : Registry) (d : Req)
    (h : wellFormedReq reg d) :
    encodedBytes reg d = some (frameBytes d) ∧
    (frameBytes d).length
      = 12 + (d.OPC.map fun v => 2 + v.PDC.getD 0).sum := by
  refine ⟨encodedBytes_eq reg d h, ?_⟩
  simp only [frameBytes, List.length_append, List.length_flatMap]
  have hmap : List.map (List.length ∘ entryBytes) d.OPC
      = List.map (fun v => 2 + v.PDC.getD 0) d.OPC := by
    apply List.map_congr_left
    intro v _
    simp [entryBytes_length]
  rw [hmap]
  simp [headerBytes]

/-- C8 witness: the amended length formula at a concrete two-property
request: 12 + (2 + 1) + (2 + 0) = 17 bytes. -/
theorem encoded_length_formula_amended_witness :
    wellFormedReq specRegistry w8Req ∧
    (encodedBytes specRegistry w8Req = some (frameBytes w8Req) ∧
      (frameBytes w8Req).length
        = 12 + (w8Req.OPC.map fun v => 2 + v.PDC.getD 0).sum) :=
  ⟨by decide, encoded_length_formula_amended specRegistry w8Req (by decide)⟩

/-- C9: `BuildEchonetMsg` mutates the caller's dict: when the `TID` key
is absent it inserts `TID = 1` before encoding, and in every call all
other keys are left unchanged (the dict after the call is the original
with `TID` set to its present value, or to 1 when it was absent). -/
theorem build_inserts_default_tid (reg : Registry) (d : Req) :
    (BuildEchonetMsg reg d).2 = { d with TID := some (d.TID.getD 1) } := by
  rcases ht : d.TID with _ | t
  · simp [BuildEchonetMsg, buildBody, ht]
  · have hd : { d with TID := some t } = d := by
      cases d
      simp_all
    simp only [BuildEchonetMsg, buildBody, ht, Option.getD_some]
    split <;> simp [hd]

/-- C10: the discovery request built by `Discover` (TID 1, destination
`0E F0 00`, service `0x62`, one property `0xD6` with no payload)
encodes to exactly the hex string `1081000105ff010ef0006201d600`,
whose bytes are the 14-byte frame
`10 81 00 01 05 ff 01 0e f0 00 62 01 d6 00`. -/
theorem build_discovery_request_hex :
    (BuildEchonetMsg specRegistry discoverPayload).1
      = PyResult.ret "1081000105ff010ef0006201d600" ∧
    bytesFromHex "1081000105ff010ef0006201d600"
      = some [0x10, 0x81, 0x00, 0x01, 0x05, 0xFF, 0x01, 0x0E, 0xF0, 0x00,
              0x62, 0x01, 0xD6, 0x00] := by
  refine ⟨?_, by decide⟩
  rw [buildDiscover_ret, discoverHex]

end Echonet
